/-
  Verification of the CampusMind backend's synchronization and schedule
  generation logic.

  Shallow embedding of:
  - backend/app/routers/schedule.py   (AI schedule generation / wipe)
  - backend/app/routers/canvas.py     (Canvas course & assignment sync)
  - backend/app/routers/calendar.py   (calendar events, recurring classes)
  - backend/app/services/sync_service.py (token vault, calendar sync run)

  Datetimes are modelled as integers (seconds or minutes since an epoch);
  dates as natural numbers (days since an epoch that falls on a Monday, so
  that day % 7 = 0 means Monday, matching Python's calendar.weekday).
  MongoDB collections are modelled as lists of records; update_one with
  upsert=True is modelled as "replace first match, else append".
-/
import Mathlib

namespace CampusMind

/-! ## schedule.py : AI schedule generation (wipe step) -/

/-- A calendar_events document, with the fields relevant to pillar gathering
and the regenerate wipe in schedule.py. -/
structure CalendarEventDoc where
  user_id : String
  title : String
  start_time : Int
  end_time : Int
  event_type : String
  source : String
  is_locked : Bool
  block_type : Option String
deriving Repr, DecidableEq

/-- The filter of the delete_many call in generate_schedule (schedule.py
lines 142-147): user match, event_type "other", source "CAMPUSMIND_AI",
start_time within [startDate, endDate].  Note that is_locked is not part
of the filter. -/
def wipeMatch (uid : String) (startDate endDate : Int) (e : CalendarEventDoc) : Bool :=
  (e.user_id == uid) && (e.event_type == "other") && (e.source == "CAMPUSMIND_AI")
    && decide (startDate ≤ e.start_time) && decide (e.start_time ≤ endDate)

/-- The filter of the pillar query in generate_schedule (schedule.py lines
105-112): events in range whose event_type is one of the four user types,
or which are locked. -/
def pillarMatch (uid : String) (startDate endDate : Int) (e : CalendarEventDoc) : Bool :=
  (e.user_id == uid) && decide (startDate ≤ e.start_time) && decide (e.start_time ≤ endDate)
    && ((e.event_type == "academic") || (e.event_type == "personal")
        || (e.event_type == "social") || (e.event_type == "wellness")
        || (e.is_locked == true))

/-- Step 4 of generate_schedule: if regeneration is requested, delete all
events matching the wipe filter; otherwise leave the collection alone. -/
def generateScheduleWipe (regenerate : Bool) (uid : String) (startDate endDate : Int)
    (events : List CalendarEventDoc) : List CalendarEventDoc :=
  if regenerate then events.filter (fun e => !(wipeMatch uid startDate endDate e)) else events

/-- A locked AI-generated study block (as written by step 6 of
generate_schedule, then locked through the /ai-blocks lock endpoint). -/
def lockedAIBlock : CalendarEventDoc :=
  { user_id := "u1", title := "Study Block", start_time := 10, end_time := 11,
    event_type := "other", source := "CAMPUSMIND_AI", is_locked := true,
    block_type := some "STUDY_BLOCK" }

/-! ## canvas.py : course / assignment sync -/

/-- A Canvas submission object as returned with include[]=submission. -/
structure PSubmission where
  workflow_state : Option String
deriving Repr, DecidableEq

/-- A Canvas assignment as returned by the provider. -/
structure PAssignment where
  id : String
  name : String
  description : Option String
  due_at : Option String
  points_possible : Option Int
  submission_types : List String
  submission : Option PSubmission
deriving Repr, DecidableEq

/-- A Canvas course as returned by the provider, together with the outcome
of the per-course assignments fetch (none models status_code ≠ 200, in
which case canvas.py silently skips the assignment loop). -/
structure PCourse where
  id : String
  name : String
  course_code : String
  enrollment_term_id : Option Int
  start_at : Option String
  end_at : Option String
  assignmentsFetch : Option (List PAssignment)
deriving Repr, DecidableEq

/-- A canvas_courses document (all fields are in the $set of the upsert). -/
structure CourseRec where
  canvas_id : String
  user_id : String
  name : String
  course_code : String
  enrollment_term_id : Option Int
  start_at : Option String
  end_at : Option String
  synced_at : Int
deriving Repr, DecidableEq

/-- An assignments document. created_at is only written through
$setOnInsert; every other field is in the $set of the upsert. -/
structure AssignmentRec where
  canvas_id : String
  user_id : String
  title : String
  description : Option String
  course : String
  course_id : String
  due_date : Option String
  points_possible : Option Int
  submission_types : List String
  status : String
  canvas_workflow_state : String
  synced_at : Int
  created_at : Int
deriving Repr, DecidableEq

/-- The $set part of the assignment upsert (canvas.py lines 626-639). -/
structure AssignmentSet where
  canvas_id : String
  user_id : String
  title : String
  description : Option String
  course : String
  course_id : String
  due_date : Option String
  points_possible : Option Int
  submission_types : List String
  status : String
  canvas_workflow_state : String
  synced_at : Int
deriving Repr, DecidableEq

/-- workflow_state = assignment.get("submission", \x7b\x7d).get("workflow_state", "unsubmitted"). -/
def workflowStateOf (a : PAssignment) : String :=
  match a.submission with
  | some s => s.workflow_state.getD "unsubmitted"
  | none => "unsubmitted"

/-- The Canvas workflow-state to status mapping (canvas.py lines 600-606):
submitted / pending_review / graded / complete map to "completed",
everything else to "not_started". -/
def canvasStatusOf (a : PAssignment) : String :=
  if workflowStateOf a ∈ (["submitted", "pending_review", "graded", "complete"] : List String)
  then "completed" else "not_started"

/-- The status-resolution rule (canvas.py lines 614-621): an existing
record with status "in_progress" keeps it; otherwise the Canvas-derived
status is used. -/
def finalStatusFor (existing : Option AssignmentRec) (a : PAssignment) : String :=
  match existing with
  | some r => if r.status = "in_progress" then "in_progress" else canvasStatusOf a
  | none => canvasStatusOf a

/-- find_one on assignments by canvas_id and user_id (canvas.py 609-612). -/
def findAssignment (uid aid : String) (s : List AssignmentRec) : Option AssignmentRec :=
  s.find? (fun r => (r.canvas_id == aid) && (r.user_id == uid))

/-- Applying the $set document to an existing record (created_at is kept). -/
def applySet (d : AssignmentSet) (r : AssignmentRec) : AssignmentRec :=
  { canvas_id := d.canvas_id, user_id := d.user_id, title := d.title,
    description := d.description, course := d.course, course_id := d.course_id,
    due_date := d.due_date, points_possible := d.points_possible,
    submission_types := d.submission_types, status := d.status,
    canvas_workflow_state := d.canvas_workflow_state, synced_at := d.synced_at,
    created_at := r.created_at }

/-- The document inserted when the upsert finds no match ($set plus the
$setOnInsert created_at). -/
def insertOnUpsert (d : AssignmentSet) (now : Int) : AssignmentRec :=
  { canvas_id := d.canvas_id, user_id := d.user_id, title := d.title,
    description := d.description, course := d.course, course_id := d.course_id,
    due_date := d.due_date, points_possible := d.points_possible,
    submission_types := d.submission_types, status := d.status,
    canvas_workflow_state := d.canvas_workflow_state, synced_at := d.synced_at,
    created_at := now }

/-- update_one(\x7bcanvas_id, user_id\x7d, \x7b$set, $setOnInsert\x7d, upsert=True)
on the assignments collection: modify the first matching document, or
append a new one. -/
def upsertAssignment (d : AssignmentSet) (now : Int) : List AssignmentRec → List AssignmentRec
  | [] => [insertOnUpsert d now]
  | r :: rs =>
    if (r.canvas_id == d.canvas_id) && (r.user_id == d.user_id)
    then applySet d r :: rs
    else r :: upsertAssignment d now rs

/-- The full $set document for one assignment (canvas.py 626-639). -/
def assignmentSetDoc (uid : String) (c : PCourse) (a : PAssignment)
    (finalStatus : String) (now : Int) : AssignmentSet :=
  { canvas_id := a.id, user_id := uid, title := a.name, description := a.description,
    course := c.course_code, course_id := c.id, due_date := a.due_at,
    points_possible := a.points_possible, submission_types := a.submission_types,
    status := finalStatus, canvas_workflow_state := workflowStateOf a, synced_at := now }

/-- Processing one assignment of one course inside sync_canvas_data:
look up the existing record, resolve the status, and upsert. -/
def syncOneAssignment (uid : String) (c : PCourse) (now : Int)
    (s : List AssignmentRec) (a : PAssignment) : List AssignmentRec :=
  upsertAssignment
    (assignmentSetDoc uid c a (finalStatusFor (findAssignment uid a.id s) a) now) now s

/-- The $set document of the course upsert (canvas.py 571-580); it covers
every field of a canvas_courses document. -/
def courseSetDoc (uid : String) (c : PCourse) (now : Int) : CourseRec :=
  { canvas_id := c.id, user_id := uid, name := c.name, course_code := c.course_code,
    enrollment_term_id := c.enrollment_term_id, start_at := c.start_at,
    end_at := c.end_at, synced_at := now }

/-- update_one upsert on canvas_courses keyed by (canvas_id, user_id). -/
def upsertCourse (d : CourseRec) : List CourseRec → List CourseRec
  | [] => [d]
  | r :: rs =>
    if (r.canvas_id == d.canvas_id) && (r.user_id == d.user_id)
    then d :: rs
    else r :: upsertCourse d rs

/-- find_one on canvas_courses by canvas_id and user_id. -/
def findCourse (uid cid : String) (s : List CourseRec) : Option CourseRec :=
  s.find? (fun r => (r.canvas_id == cid) && (r.user_id == uid))

/-- The local state touched by sync_canvas_data. -/
structure CanvasState where
  canvas_courses : List CourseRec
  assignments : List AssignmentRec
deriving Repr, DecidableEq

/-- The body of the per-course loop of sync_canvas_data (canvas.py
562-646): skip untracked courses, upsert the course, then (only when the
assignments fetch returned 200) upsert each assignment. -/
def syncCourse (uid : String) (now : Int) (tracked : List String)
    (st : CanvasState) (c : PCourse) : CanvasState :=
  if c.id ∈ tracked then
    let st1 : CanvasState :=
      { st with canvas_courses := upsertCourse (courseSetDoc uid c now) st.canvas_courses }
    match c.assignmentsFetch with
    | some as => { st1 with assignments := as.foldl (syncOneAssignment uid c now) st1.assignments }
    | none => st1
  else st

/-- The state effect of POST /canvas/sync (canvas.py sync_canvas_data). -/
def sync_canvas_data (uid : String) (tracked : List String) (courses : List PCourse)
    (now : Int) (st : CanvasState) : CanvasState :=
  courses.foldl (syncCourse uid now tracked) st

/-- Response model of POST /canvas/sync. -/
structure CanvasSyncResponse where
  success : Bool
  message : String
  courses_synced : Nat
  assignments_synced : Nat
deriving Repr, DecidableEq

/-- The courses_synced / assignments_synced counters of sync_canvas_data. -/
def canvasSyncCounts (tracked : List String) (courses : List PCourse) : Nat × Nat :=
  courses.foldl
    (fun acc c =>
      if c.id ∈ tracked then
        (acc.1 + 1, acc.2 + (match c.assignmentsFetch with | some l => l.length | none => 0))
      else acc)
    (0, 0)

/-- POST /canvas/sync including its early empty-tracked-set return
(canvas.py 534-541) and its response. -/
def sync_canvas_data_endpoint (uid : String) (tracked : List String)
    (courses : List PCourse) (now : Int) (st : CanvasState) :
    CanvasState × CanvasSyncResponse :=
  if tracked.isEmpty then
    (st, { success := true,
           message := "No courses tracked. Please select courses to track first.",
           courses_synced := 0, assignments_synced := 0 })
  else
    let st1 := sync_canvas_data uid tracked courses now st
    let n := canvasSyncCounts tracked courses
    (st1, { success := true,
            message := "Successfully synced " ++ toString n.1 ++ " courses and "
              ++ toString n.2 ++ " assignments",
            courses_synced := n.1, assignments_synced := n.2 })

/-! ## calendar.py : recurring class expansion and single events -/

/-- str.split(sep) over explicit character lists. -/
def splitOnChar (sep : Char) : List Char → List (List Char)
  | [] => [[]]
  | c :: cs =>
    let r := splitOnChar sep cs
    if c = sep then [] :: r
    else
      match r with
      | [] => [[c]]
      | g :: gs => (c :: g) :: gs

/-- int(digit string), over an explicit character list. -/
def natOfDigits (l : List Char) : Nat :=
  l.foldl (fun n c => n * 10 + (c.toNat - 48)) 0

/-- str.lower() over explicit characters. -/
def strToLower (s : String) : String :=
  String.mk (s.data.map Char.toLower)

/-- get_weekday_index (calendar.py 30-41): day name to 0=Monday .. 6=Sunday,
unknown names defaulting to 0. -/
def get_weekday_index (day_name : String) : Nat :=
  let d := strToLower day_name
  if d = "monday" then 0
  else if d = "tuesday" then 1
  else if d = "wednesday" then 2
  else if d = "thursday" then 3
  else if d = "friday" then 4
  else if d = "saturday" then 5
  else if d = "sunday" then 6
  else 0

/-- parse_time_str (calendar.py 43-52): the HH:MM regex check (1-2 digits,
a colon, exactly 2 digits) followed by the numeric range check. -/
def parse_time_str (time_str : String) : Except String (Nat × Nat) :=
  match splitOnChar ':' time_str.data with
  | [h, m] =>
    if (1 ≤ h.length && h.length ≤ 2) && h.all Char.isDigit
        && (m.length == 2) && m.all Char.isDigit then
      let hour := natOfDigits h
      let minute := natOfDigits m
      if hour > 23 || minute > 59 then Except.error "Invalid time values"
      else Except.ok (hour, minute)
    else Except.error "Time must be in HH:MM format"
  | _ => Except.error "Time must be in HH:MM format"

/-- The while loop of generate_class_events (calendar.py 80-86): advance
from the term start one day at a time until the weekday matches, breaking
out as soon as the day has gone past the term end.  A fuel of 7 covers all
seven residues, so the fuel-exhaustion branch is unreachable for w < 7. -/
def firstDayLoop (w termEndDay : Nat) : Nat → Nat → Nat
  | d, 0 => d
  | d, fuel + 1 =>
    if d % 7 = w then d
    else if termEndDay < d + 1 then d + 1
    else firstDayLoop w termEndDay (d + 1) fuel

/-- First occurrence search for one weekday, started at the term start. -/
def findFirstDay (w termStartDay termEndDay : Nat) : Nat :=
  firstDayLoop w termEndDay termStartDay 7

/-- dateutil.rrule(freq=WEEKLY, dtstart, until): every 7-day step from
dtstart that does not pass the (end-of-day) term end.  Expressed with the
fuel termEndDay + 1 - dtstart, which bounds the number of occurrences. -/
def rruleWeeklyAux : Nat → Nat → Nat → List Nat
  | 0, _, _ => []
  | fuel + 1, d, e => if e < d then [] else d :: rruleWeeklyAux fuel (d + 7) e

/-- Weekly recurrence enumeration over days. -/
def rruleWeekly (dtstart termEndDay : Nat) : List Nat :=
  rruleWeeklyAux (termEndDay + 1 - dtstart) dtstart termEndDay

/-- A ClassEventCreate request.  The two term datetimes are minutes since
the epoch; their date parts are the corresponding day numbers. -/
structure ClassEventCreateM where
  title : String
  description : Option String
  location : Option String
  color : Option String
  days_of_week : List String
  start_time : String
  end_time : String
  term_start_min : Nat
  term_end_min : Nat
  notifications : List Int
  priority : String
deriving Repr, DecidableEq

/-- One generated class event document: the occurrence day combined with
the class start and end times of day (in minutes), plus the constant
fields written by generate_class_events. -/
structure EventDoc where
  user_id : String
  title : String
  description : Option String
  day : Nat
  start_minute : Nat
  end_minute : Nat
  location : Option String
  event_type : String
  priority : String
  is_recurring : Bool
  recurrence_pattern : String
  color : Option String
  notifications : List Int
  created_at : Nat
  updated_at : Nat
deriving Repr, DecidableEq

/-- WeekDay(days_of_week[0]).name[:2], e.g. "tuesday" to "TU". -/
def bydayAbbrev (day_name : String) : String :=
  String.mk ((day_name.data.map Char.toUpper).take 2)

/-- The event document built for one occurrence (calendar.py 96-119). -/
def classEventDoc (ce : ClassEventCreateM) (user_id : String) (now : Nat)
    (st et : Nat × Nat) (occ : Nat) : EventDoc :=
  { user_id := user_id, title := ce.title, description := ce.description,
    day := occ, start_minute := st.1 * 60 + st.2, end_minute := et.1 * 60 + et.2,
    location := ce.location, event_type := "academic", priority := ce.priority,
    is_recurring := true,
    recurrence_pattern := "WEEKLY;BYDAY=" ++ bydayAbbrev (ce.days_of_week.headD ""),
    color := ce.color, notifications := ce.notifications,
    created_at := now, updated_at := now }

/-- generate_class_events (calendar.py 54-121): parse the times, then for
each requested weekday enumerate the weekly occurrences between the term
start (at midnight) and the term end (at end of day), emitting one event
document per occurrence. -/
def generate_class_events (ce : ClassEventCreateM) (user_id : String) (now : Nat) :
    Except String (List EventDoc) :=
  match parse_time_str ce.start_time with
  | Except.error e => Except.error ("Invalid time format: " ++ e)
  | Except.ok st =>
    match parse_time_str ce.end_time with
    | Except.error e => Except.error ("Invalid time format: " ++ e)
    | Except.ok et =>
      let weekdays := ce.days_of_week.map get_weekday_index
      let termStartDay := ce.term_start_min / 1440
      let termEndDay := ce.term_end_min / 1440
      Except.ok (weekdays.flatMap (fun w =>
        (rruleWeekly (findFirstDay w termStartDay termEndDay) termEndDay).map
          (classEventDoc ce user_id now st et)))

/-- Response model of POST /calendar/classes. -/
structure BulkEventsResponse where
  success : Bool
  message : String
  events_created : Nat
deriving Repr, DecidableEq

/-- create_class_events (calendar.py 543-610): reject term_end ≤ term_start
before expansion; expand; return without writing when the expansion is
empty; otherwise bulk-insert all events.  The first component of the
result is the list of documents written to the database. -/
def create_class_events (ce : ClassEventCreateM) (user_id : String) (now : Nat) :
    Except String (List EventDoc × BulkEventsResponse) :=
  if ce.term_end_min ≤ ce.term_start_min then
    Except.error "Term end date must be after term start date"
  else
    match generate_class_events ce user_id now with
    | Except.error e => Except.error e
    | Except.ok evs =>
      if evs.isEmpty then
        Except.ok ([],
          { success := true,
            message := "No events were created. Check that your term dates and days of week are valid.",
            events_created := 0 })
      else
        Except.ok (evs,
          { success := true,
            message := "Successfully created " ++ toString evs.length ++ " class events",
            events_created := evs.length })

/-- The calendar_events documents created by this router are rejected or
written whole; this extracts what a call wrote. -/
def writtenClassEvents (r : Except String (List EventDoc × BulkEventsResponse)) :
    List EventDoc :=
  match r with
  | Except.ok (evs, _) => evs
  | Except.error _ => []

/-! ## calendar.py : single event create / update -/

/-- A CalendarEventCreate request body. -/
structure CalendarEventCreateM where
  title : String
  description : Option String
  start_time : Int
  end_time : Int
  location : Option String
  event_type : String
  priority : String
  is_recurring : Bool
  recurrence_pattern : Option String
  color : Option String
  notifications : List Int
deriving Repr, DecidableEq

/-- A personal calendar_events document as written by create_event. -/
structure PersonalEventDoc where
  user_id : String
  title : String
  description : Option String
  start_time : Int
  end_time : Int
  location : Option String
  event_type : String
  priority : String
  is_recurring : Bool
  recurrence_pattern : Option String
  color : Option String
  notifications : List Int
  created_at : Int
  updated_at : Int
deriving Repr, DecidableEq

/-- create_event (calendar.py 123-207): reject end_time ≤ start_time with a
400 before writing, otherwise insert the document. -/
def create_event (e : CalendarEventCreateM) (uid : String) (now : Int) :
    Except String PersonalEventDoc :=
  if e.end_time ≤ e.start_time then
    Except.error "End time must be after start time"
  else
    Except.ok
      { user_id := uid, title := e.title, description := e.description,
        start_time := e.start_time, end_time := e.end_time, location := e.location,
        event_type := e.event_type, priority := e.priority,
        is_recurring := e.is_recurring, recurrence_pattern := e.recurrence_pattern,
        color := e.color, notifications := e.notifications,
        created_at := now, updated_at := now }

/-- A CalendarEventUpdate request body: every field optional; None fields
are skipped when building update_data. -/
structure CalendarEventUpdateM where
  title : Option String
  description : Option String
  start_time : Option Int
  end_time : Option Int
  location : Option String
  event_type : Option String
  priority : Option String
  is_recurring : Option Bool
  recurrence_pattern : Option String
  color : Option String
  notifications : Option (List Int)
deriving Repr, DecidableEq

/-- Whether update_data is non-empty (some field was provided). -/
def hasUpdateField (u : CalendarEventUpdateM) : Bool :=
  u.title.isSome || u.description.isSome || u.start_time.isSome || u.end_time.isSome
    || u.location.isSome || u.event_type.isSome || u.priority.isSome
    || u.is_recurring.isSome || u.recurrence_pattern.isSome || u.color.isSome
    || u.notifications.isSome

/-- update_event (calendar.py 425-460): validate the provided bound or
bounds against each other or the stored ones, reject an empty update, then
$set the provided fields (and updated_at). -/
def update_event (existing : PersonalEventDoc) (u : CalendarEventUpdateM) (now : Int) :
    Except String PersonalEventDoc :=
  let check : Except String Unit :=
    match u.start_time, u.end_time with
    | some st, some et =>
      if et ≤ st then Except.error "End time must be after start time" else Except.ok ()
    | some st, none =>
      if existing.end_time ≤ st then Except.error "Start time must be before end time"
      else Except.ok ()
    | none, some et =>
      if et ≤ existing.start_time then Except.error "End time must be after start time"
      else Except.ok ()
    | none, none => Except.ok ()
  match check with
  | Except.error e => Except.error e
  | Except.ok _ =>
    if !(hasUpdateField u) then Except.error "No fields to update"
    else
      Except.ok
        { user_id := existing.user_id,
          title := u.title.getD existing.title,
          description := u.description.or existing.description,
          start_time := u.start_time.getD existing.start_time,
          end_time := u.end_time.getD existing.end_time,
          location := u.location.or existing.location,
          event_type := u.event_type.getD existing.event_type,
          priority := u.priority.getD existing.priority,
          is_recurring := u.is_recurring.getD existing.is_recurring,
          recurrence_pattern := u.recurrence_pattern.or existing.recurrence_pattern,
          color := u.color.or existing.color,
          notifications := u.notifications.getD existing.notifications,
          created_at := existing.created_at, updated_at := now }

/-! ## sync_service.py : token vault -/

/-- A google_tokens document (sync_service.py save_user_tokens). -/
structure GoogleTokenRec where
  user_id : String
  access_token : String
  refresh_token : String
  expires_at : Option Int
  updated_at : Int
deriving Repr, DecidableEq

/-- get_valid_access_token (sync_service.py 152-178).  Times are seconds.
The outbound refresh call is modelled by refreshFn, mapping the refresh
token that is sent to either an error or (access_token, expires_in).  The
second component of the result is the stored token record afterwards
(save_user_tokens keeps the same refresh token and stores
expires_at = now + expires_in). -/
def get_valid_access_token (tokens : Option GoogleTokenRec)
    (refreshFn : String → Except String (String × Int)) (now : Int) :
    Option String × Option GoogleTokenRec :=
  match tokens with
  | none => (none, none)
  | some t =>
    match t.expires_at with
    | some e =>
      if e < now + 5 * 60 then
        match refreshFn t.refresh_token with
        | Except.ok p =>
          (some p.1,
           some { user_id := t.user_id, access_token := p.1,
                  refresh_token := t.refresh_token,
                  expires_at := some (now + p.2), updated_at := now })
        | Except.error _ => (none, some t)
      else (some t.access_token, some t)
    | none => (some t.access_token, some t)

/-! ## sync_service.py : Canvas to Google Calendar sync run -/

deriving instance DecidableEq for Except

/-- A Canvas assignment as seen by sync_canvas_to_calendar, together with
the environment of its processing: whether a canvas_assignments document
already exists (and its google_event_id), and the outcome of the Google
Calendar create/update call for it.  due_at is the parsed due datetime in
seconds (none = no due date, in which case the assignment is skipped). -/
structure GAssignment where
  id : String
  name : String
  due_at : Option Int
  existingEventId : Option (Option String)
  pushOutcome : Except String String
deriving Repr, DecidableEq

/-- A tracked course together with the outcome of its assignments fetch. -/
structure GTrackedCourse where
  course_id : String
  course_code : String
  course_name : String
  assignmentsFetch : Except String (List GAssignment)
deriving Repr, DecidableEq

/-- The per-user sync_state document, read at the start of a run. -/
structure SyncStateRec where
  last_canvas_sync : Option Int
  auto_sync_interval_hours : Option Int
deriving Repr, DecidableEq

/-- The fields of the sync_state update written at the end of a run. -/
structure SyncStateWrite where
  last_sync_status : String
  last_sync_error : Option String
deriving Repr, DecidableEq

/-- The result of a sync run: the returned payload plus the sync_state
update performed by the run (none if the run never touched sync_state). -/
structure SyncRunResult where
  status : String
  message : Option String
  synced_count : Nat
  failed_count : Nat
  created_events : Nat
  errors : List String
  syncStateWrite : Option SyncStateWrite
deriving Repr, DecidableEq

/-- Counter state of the per-course loop. -/
structure SyncAcc where
  synced : Nat
  failed : Nat
  created : Nat
  errors : List String
deriving Repr, DecidableEq

/-- Per-assignment step (sync_service.py 246-331): skip missing or past due
dates; update the mapped event when a mapping exists, otherwise create one
(and store the mapping); count per-item successes and failures. -/
def syncAssignmentStep (now : Int) (acc : SyncAcc) (a : GAssignment) : SyncAcc :=
  match a.due_at with
  | none => acc
  | some due =>
    if due < now then acc
    else
      match a.existingEventId with
      | some (some _) =>
        match a.pushOutcome with
        | Except.ok _ => { acc with synced := acc.synced + 1 }
        | Except.error e => { acc with failed := acc.failed + 1, errors := acc.errors ++ [e] }
      | _ =>
        match a.pushOutcome with
        | Except.ok _ => { acc with synced := acc.synced + 1, created := acc.created + 1 }
        | Except.error e => { acc with failed := acc.failed + 1, errors := acc.errors ++ [e] }

/-- Per-course step (sync_service.py 235-342): a failed assignments fetch
is recorded and the loop continues with the next course. -/
def syncCourseStep (now : Int) (acc : SyncAcc) (c : GTrackedCourse) : SyncAcc :=
  match c.assignmentsFetch with
  | Except.error e => { acc with failed := acc.failed + 1, errors := acc.errors ++ [e] }
  | Except.ok as => as.foldl (syncAssignmentStep now) acc

/-- The skip check at the top of sync_canvas_to_calendar (201-210): without
force, a sync_state whose last_canvas_sync is within the auto-sync
interval (default 24h) short-circuits the run. -/
def shouldSkip (force : Bool) (sync_state : Option SyncStateRec) (now : Int) : Bool :=
  !force &&
    (match sync_state with
     | some ss =>
       match ss.last_canvas_sync with
       | some last => decide (now - last < (ss.auto_sync_interval_hours.getD 24) * 3600)
       | none => false
     | none => false)

/-- sync_canvas_to_calendar (sync_service.py 180-365).  access_token is the
result of get_valid_access_token; tracked is the user's tracked course
list with each course's fetch outcome. -/
def sync_canvas_to_calendar (force : Bool) (sync_state : Option SyncStateRec)
    (access_token : Option String) (tracked : List GTrackedCourse) (now : Int) :
    SyncRunResult :=
  if shouldSkip force sync_state now then
    { status := "skipped", message := some "Sync not needed yet",
      synced_count := 0, failed_count := 0, created_events := 0, errors := [],
      syncStateWrite := none }
  else
    match access_token with
    | none =>
      { status := "error", message := some "Google Calendar not connected",
        synced_count := 0, failed_count := 0, created_events := 0, errors := [],
        syncStateWrite := none }
    | some _ =>
      if tracked.isEmpty then
        { status := "error", message := some "No courses being tracked",
          synced_count := 0, failed_count := 0, created_events := 0, errors := [],
          syncStateWrite := none }
      else
        let acc := tracked.foldl (syncCourseStep now) ⟨0, 0, 0, []⟩
        { status := "success", message := none,
          synced_count := acc.synced, failed_count := acc.failed,
          created_events := acc.created, errors := acc.errors,
          syncStateWrite :=
            some { last_sync_status := if acc.failed = 0 then "success" else "partial",
                   last_sync_error := acc.errors.head? } }

/-! ## Auxiliary definitions used by the verification -/

/-- Default record used with List.getD when talking about positions. -/
def arbAssignmentRec : AssignmentRec :=
  { canvas_id := "", user_id := "", title := "", description := none, course := "",
    course_id := "", due_date := none, points_possible := none, submission_types := [],
    status := "", canvas_workflow_state := "", synced_at := 0, created_at := 0 }

/-- How a sync pass may change assignment statuses: existing positions keep
their identity, a record is "in_progress" afterwards exactly when it was
before, any status a pass writes over an existing record is either the old
status or Canvas-derived ("not_started"/"completed"), and appended records
carry only Canvas-derived statuses. -/
def statusPreserved (s t : List AssignmentRec) : Prop :=
  s.length ≤ t.length ∧
  (∀ i, i < s.length →
    (((s.getD i arbAssignmentRec).status = "in_progress" ↔
      (t.getD i arbAssignmentRec).status = "in_progress") ∧
     ((t.getD i arbAssignmentRec).status = (s.getD i arbAssignmentRec).status ∨
      (t.getD i arbAssignmentRec).status = "not_started" ∨
      (t.getD i arbAssignmentRec).status = "completed"))) ∧
  (∀ i, s.length ≤ i → i < t.length →
    ((t.getD i arbAssignmentRec).status = "not_started" ∨
     (t.getD i arbAssignmentRec).status = "completed"))

/-- The tracked courses actually processed by the course loop, in order. -/
def processedCourses (tracked : List String) (courses : List PCourse) : List PCourse :=
  courses.filter (fun c => decide (c.id ∈ tracked))

/-- The (course, assignment) pairs actually processed by the assignment
loop, in order: tracked courses only, and only when the fetch returned
200. -/
def processedPairs (tracked : List String) (courses : List PCourse) :
    List (PCourse × PAssignment) :=
  courses.flatMap (fun c =>
    if c.id ∈ tracked then
      match c.assignmentsFetch with
      | some as => as.map (fun a => (c, a))
      | none => []
    else [])

/-- A processed assignment is settled in a state when its record is present
and re-applying its $set document (with the status re-resolved from the
record itself) changes nothing. -/
def settledFor (uid : String) (now : Int) (p : PCourse × PAssignment)
    (s : List AssignmentRec) : Prop :=
  ∃ r, findAssignment uid p.2.id s = some r ∧
    applySet (assignmentSetDoc uid p.1 p.2 (finalStatusFor (some r) p.2) now) r = r

/-- A processed course is settled in a state when its record equals its
(state-independent) $set document. -/
def settledCourse (uid : String) (now : Int) (c : PCourse) (s : List CourseRec) : Prop :=
  findCourse uid c.id s = some (courseSetDoc uid c now)

/-- The date-stamped instance carried by a generated class event. -/
def classInstanceOf (e : EventDoc) : Nat × Nat × Nat :=
  (e.day, e.start_minute, e.end_minute)

/-! ## Concrete inputs used by witnesses and counterexamples -/

/-- A recurring-class request: Tuesday/Thursday 11:00-13:00, term days 1
through 15 (day 0 of the epoch is a Monday). -/
def ceExample : ClassEventCreateM :=
  { title := "Algorithms", description := none, location := none, color := none,
    days_of_week := ["tuesday", "thursday"], start_time := "11:00", end_time := "13:00",
    term_start_min := 1440, term_end_min := 1440 * 15 + 600,
    notifications := [], priority := "medium" }

/-- The expansion of ceExample (computed once, used by witnesses). -/
def ceExampleEvents : List EventDoc :=
  match generate_class_events ceExample "u1" 7 with
  | Except.ok l => l
  | Except.error _ => []

/-- ceExample with the term end equal to the term start. -/
def ceEqualTerm : ClassEventCreateM :=
  { ceExample with term_end_min := 1440 }

/-- A stored Google token that expired at time 0. -/
def tokExample : GoogleTokenRec :=
  { user_id := "u1", access_token := "old", refresh_token := "refr",
    expires_at := some 0, updated_at := 0 }

/-- A tracked course whose assignments fetch fails. -/
def courseFailExample : GTrackedCourse :=
  { course_id := "c1", course_code := "CS101", course_name := "Intro",
    assignmentsFetch := Except.error "boom" }

/-- A provider assignment with a submitted submission. -/
def pAssignExample : PAssignment :=
  { id := "a1", name := "HW1", description := none, due_at := some "2025-10-20T00:00:00Z",
    points_possible := some 10, submission_types := ["online_upload"],
    submission := some { workflow_state := some "submitted" } }

/-- A provider course carrying pAssignExample. -/
def pCourseExample : PCourse :=
  { id := "c1", name := "Intro", course_code := "CS101", enrollment_term_id := none,
    start_at := none, end_at := none, assignmentsFetch := some [pAssignExample] }

/-- A local assignment record the user marked in_progress. -/
def aRecInProgress : AssignmentRec :=
  { canvas_id := "a1", user_id := "u1", title := "HW1", description := none,
    course := "CS101", course_id := "c1", due_date := none, points_possible := none,
    submission_types := [], status := "in_progress",
    canvas_workflow_state := "unsubmitted", synced_at := 0, created_at := 0 }

/-- A concrete create-event request (times 5..9). -/
def createReqEx : CalendarEventCreateM :=
  { title := "t", description := none, start_time := 5, end_time := 9,
    location := none, event_type := "personal", priority := "medium",
    is_recurring := false, recurrence_pattern := none, color := none,
    notifications := [] }

/-- The document create_event writes for createReqEx at now = 3. -/
def createdDocEx : PersonalEventDoc :=
  { user_id := "u1", title := "t", description := none, start_time := 5,
    end_time := 9, location := none, event_type := "personal",
    priority := "medium", is_recurring := false, recurrence_pattern := none,
    color := none, notifications := [], created_at := 3, updated_at := 3 }

/-- A concrete update providing only a new start time. -/
def updateReqEx : CalendarEventUpdateM :=
  { title := none, description := none, start_time := some 7, end_time := none,
    location := none, event_type := none, priority := none, is_recurring := none,
    recurrence_pattern := none, color := none, notifications := none }

/-- The document update_event writes for updateReqEx over createdDocEx. -/
def updatedDocEx : PersonalEventDoc :=
  { createdDocEx with start_time := 7 }

/-! ## C1 : lock protection under the regenerate wipe -/

/-- C1: the claim says a CalendarEvent with isLocked = true survives the
generateSchedule(regenerate=true) wipe even when its source is the AI
marker.  The code's delete filter (schedule.py 142-147) does not test
is_locked, so a locked AI block — which the same request even gathers as a
pillar — is deleted by the wipe. -/
theorem C1_wipe_deletes_locked_ai_block :
    lockedAIBlock.is_locked = true ∧
    pillarMatch "u1" 0 100 lockedAIBlock = true ∧
    generateScheduleWipe true "u1" 0 100 [lockedAIBlock] = [] := by
  refine ⟨rfl, ?_, ?_⟩ <;> decide

/-! ## C7 : token refresh semantics -/

/-- C7: with a stored token whose expires_at is within the 5-minute margin
of now, get_valid_access_token refreshes using the stored refresh token;
on refresh failure it returns none and leaves the stored record exactly as
it was (the refresh token is not cleared), and on success it returns the
new access token, keeping the same refresh token. -/
theorem C7_token_refresh_failure_keeps_record (t : GoogleTokenRec)
    (refreshFn : String → Except String (String × Int)) (now e : Int)
    (hexp : t.expires_at = some e) (hmargin : e < now + 5 * 60) :
    (∀ msg, refreshFn t.refresh_token = Except.error msg →
      get_valid_access_token (some t) refreshFn now = (none, some t)) ∧
    (∀ p, refreshFn t.refresh_token = Except.ok p →
      get_valid_access_token (some t) refreshFn now =
        (some p.1,
         some { user_id := t.user_id, access_token := p.1,
                refresh_token := t.refresh_token,
                expires_at := some (now + p.2), updated_at := now })) := by
  constructor
  · intro msg hmsg
    simp only [get_valid_access_token, hexp]
    rw [if_pos hmargin, hmsg]
  · intro p hp
    simp only [get_valid_access_token, hexp]
    rw [if_pos hmargin, hp]

/-- Witness for C7 at a concrete expired token and a failing refresh. -/
theorem C7_witness :
    get_valid_access_token (some tokExample) (fun _ => Except.error "boom") 1000 =
      (none, some tokExample) :=
  (C7_token_refresh_failure_keeps_record tokExample (fun _ => Except.error "boom")
    1000 0 rfl (by decide)).1 "boom" rfl

/-! ## C10 : event time ordering invariant -/

/-- C10: create_event rejects end_time ≤ start_time before writing, and
update_event validates a provided bound against the other (provided or
stored) bound, so every document either operation writes satisfies
start_time < end_time. -/
theorem C10_event_time_ordering (e : CalendarEventCreateM) (uid : String) (now : Int)
    (ex : PersonalEventDoc) (u : CalendarEventUpdateM) (d d2 : PersonalEventDoc) :
    (create_event e uid now = Except.ok d → d.start_time < d.end_time) ∧
    (ex.start_time < ex.end_time → update_event ex u now = Except.ok d2 →
      d2.start_time < d2.end_time) := by
  constructor
  · intro h
    unfold create_event at h
    split at h
    · exact absurd h (by simp)
    · rename_i hlt
      injection h with h
      subst h
      simpa using lt_of_not_le hlt
  · intro hex h
    unfold update_event at h
    rcases hst : u.start_time with _ | st <;> rcases het : u.end_time with _ | et <;>
      simp only [hst, het] at h
    · -- no bound provided: times unchanged
      split at h
      · exact absurd h (by simp)
      · injection h with h
        subst h
        simpa [hst, het] using hex
    · -- only end_time provided
      split at h
      · exact absurd h (by simp)
      · rename_i val hc
        split at hc
        · exact absurd hc (by simp)
        · rename_i hle
          split at h
          · exact absurd h (by simp)
          · injection h with h
            subst h
            simpa [hst, het] using lt_of_not_le hle
    · -- only start_time provided
      split at h
      · exact absurd h (by simp)
      · rename_i val hc
        split at hc
        · exact absurd hc (by simp)
        · rename_i hle
          split at h
          · exact absurd h (by simp)
          · injection h with h
            subst h
            simpa [hst, het] using lt_of_not_le hle
    · -- both bounds provided
      split at h
      · exact absurd h (by simp)
      · rename_i val hc
        split at hc
        · exact absurd hc (by simp)
        · rename_i hle
          split at h
          · exact absurd h (by simp)
          · injection h with h
            subst h
            simpa [hst, het] using lt_of_not_le hle

/-- Witness for C10: a concrete create and a concrete single-bound update,
with both hypotheses discharged by evaluation. -/
theorem C10_witness :
    createdDocEx.start_time < createdDocEx.end_time ∧
    updatedDocEx.start_time < updatedDocEx.end_time :=
  ⟨(C10_event_time_ordering createReqEx "u1" 3 createdDocEx updateReqEx
      createdDocEx updatedDocEx).1 (by decide),
   (C10_event_time_ordering createReqEx "u1" 3 createdDocEx updateReqEx
      createdDocEx updatedDocEx).2 (by decide) (by decide)⟩

/-! ## C8 : SyncState persistence -/

/-- C8 counterexample: with no valid token, sync_canvas_to_calendar
returns an error result without persisting any SyncState update, so the
claim that every exit path persists a SyncState (ERROR on total failure)
is false on the code. -/
theorem C8_counterexample :
    (sync_canvas_to_calendar true none none [courseFailExample] 0).status = "error" ∧
    (sync_canvas_to_calendar true none none [courseFailExample] 0).syncStateWrite = none :=
  ⟨rfl, rfl⟩

/-- C8 amended: SyncState is persisted exactly by runs that pass the skip,
token and tracked-course guards, once at the end, recording "success" when
no per-item failure occurred and "partial" otherwise (with the first error
message); the skip path and the two total-failure paths (no token, no
tracked courses) return without touching SyncState. -/
theorem C8_syncstate_guarded (force : Bool) (ss : Option SyncStateRec)
    (tok : Option String) (tracked : List GTrackedCourse) (now : Int) :
    (shouldSkip force ss now = true →
      (sync_canvas_to_calendar force ss tok tracked now).syncStateWrite = none ∧
      (sync_canvas_to_calendar force ss tok tracked now).status = "skipped") ∧
    (shouldSkip force ss now = false → tok = none →
      (sync_canvas_to_calendar force ss tok tracked now).syncStateWrite = none ∧
      (sync_canvas_to_calendar force ss tok tracked now).status = "error" ∧
      (sync_canvas_to_calendar force ss tok tracked now).message =
        some "Google Calendar not connected") ∧
    (shouldSkip force ss now = false → tok ≠ none → tracked = [] →
      (sync_canvas_to_calendar force ss tok tracked now).syncStateWrite = none ∧
      (sync_canvas_to_calendar force ss tok tracked now).status = "error" ∧
      (sync_canvas_to_calendar force ss tok tracked now).message =
        some "No courses being tracked") ∧
    (shouldSkip force ss now = false → tok ≠ none → tracked ≠ [] →
      (sync_canvas_to_calendar force ss tok tracked now).syncStateWrite =
        some { last_sync_status :=
                 if (sync_canvas_to_calendar force ss tok tracked now).failed_count = 0
                 then "success" else "partial",
               last_sync_error :=
                 (sync_canvas_to_calendar force ss tok tracked now).errors.head? }) := by
  refine ⟨?_, ?_, ?_, ?_⟩
  · intro hskip
    simp [sync_canvas_to_calendar, hskip]
  · intro hskip htok
    subst htok
    simp [sync_canvas_to_calendar, hskip]
  · intro hskip htok htr
    subst htr
    rcases tok with _ | t
    · exact absurd rfl htok
    · simp [sync_canvas_to_calendar, hskip]
  · intro hskip htok htr
    rcases tok with _ | t
    · exact absurd rfl htok
    · have hne : tracked.isEmpty = false := by
        cases tracked with
        | nil => exact absurd rfl htr
        | cons a l => rfl
      simp [sync_canvas_to_calendar, hskip, hne]

/-- Witness for C8 at a concrete run with one failing course fetch. -/
theorem C8_witness :
    (sync_canvas_to_calendar true none (some "tok") [courseFailExample] 0).syncStateWrite =
      some { last_sync_status := "partial", last_sync_error := some "boom" } := by
  have h := (C8_syncstate_guarded true none (some "tok") [courseFailExample] 0).2.2.2
    rfl (by decide) (by decide)
  rw [h]
  decide

/-! ## C9 : distinguishing "nothing to do" from "failed" -/

/-- C9 counterexample: in the calendar sync, an empty tracked-course set
(with a valid token) yields status "error" rather than a no-op success,
and that status equals the status of the no-token failure case. -/
theorem C9_counterexample :
    (sync_canvas_to_calendar true none (some "tok") [] 0).status = "error" ∧
    (sync_canvas_to_calendar true none none [] 0).status =
      (sync_canvas_to_calendar true none (some "tok") [] 0).status :=
  ⟨rfl, rfl⟩

/-- C9 amended: the course sync returns a no-op success (with zero counts
and an untouched state) for an empty tracked set, while the calendar sync
returns status "error" both for an empty tracked set and for a missing
token — the two failure-ish cases share the same status and are told apart
only by their messages. -/
theorem C9_empty_tracked_outcomes (uid : String) (courses : List PCourse) (now : Int)
    (st : CanvasState) (force : Bool) (ss : Option SyncStateRec) (now2 : Int)
    (tok : String) (hskip : shouldSkip force ss now2 = false) :
    (sync_canvas_data_endpoint uid [] courses now st).2.success = true ∧
    (sync_canvas_data_endpoint uid [] courses now st).2.courses_synced = 0 ∧
    (sync_canvas_data_endpoint uid [] courses now st).2.assignments_synced = 0 ∧
    (sync_canvas_data_endpoint uid [] courses now st).1 = st ∧
    (sync_canvas_to_calendar force ss (some tok) [] now2).status = "error" ∧
    (sync_canvas_to_calendar force ss (some tok) [] now2).message =
      some "No courses being tracked" ∧
    (sync_canvas_to_calendar force ss none [] now2).status = "error" ∧
    (sync_canvas_to_calendar force ss none [] now2).message =
      some "Google Calendar not connected" := by
  refine ⟨?_, ?_, ?_, ?_, ?_, ?_, ?_, ?_⟩ <;>
    simp [sync_canvas_data_endpoint, sync_canvas_to_calendar, hskip]

/-- Witness for C9 at concrete inputs. -/
theorem C9_witness :
    (sync_canvas_data_endpoint "u" [] [] 0 ⟨[], []⟩).2.success = true ∧
    (sync_canvas_data_endpoint "u" [] [] 0 ⟨[], []⟩).2.courses_synced = 0 ∧
    (sync_canvas_data_endpoint "u" [] [] 0 ⟨[], []⟩).2.assignments_synced = 0 ∧
    (sync_canvas_data_endpoint "u" [] [] 0 ⟨[], []⟩).1 = ⟨[], []⟩ ∧
    (sync_canvas_to_calendar true none (some "tok") [] 5).status = "error" ∧
    (sync_canvas_to_calendar true none (some "tok") [] 5).message =
      some "No courses being tracked" ∧
    (sync_canvas_to_calendar true none none [] 5).status = "error" ∧
    (sync_canvas_to_calendar true none none [] 5).message =
      some "Google Calendar not connected" :=
  C9_empty_tracked_outcomes "u" [] 0 ⟨[], []⟩ true none 5 "tok" rfl

/-! ## Canvas sync: upsert / lookup lemmas -/

theorem applySet_status (d : AssignmentSet) (r : AssignmentRec) :
    (applySet d r).status = d.status := rfl

theorem insertOnUpsert_status (d : AssignmentSet) (now : Int) :
    (insertOnUpsert d now).status = d.status := rfl

theorem applySet_applySet (d : AssignmentSet) (r : AssignmentRec) :
    applySet d (applySet d r) = applySet d r := rfl

theorem applySet_insertOnUpsert (d : AssignmentSet) (now : Int) :
    applySet d (insertOnUpsert d now) = insertOnUpsert d now := rfl

theorem canvasStatusOf_cases (a : PAssignment) :
    canvasStatusOf a = "completed" ∨ canvasStatusOf a = "not_started" := by
  unfold canvasStatusOf
  split
  · exact Or.inl rfl
  · exact Or.inr rfl

theorem canvasStatusOf_ne_in_progress (a : PAssignment) :
    canvasStatusOf a ≠ "in_progress" := by
  rcases canvasStatusOf_cases a with h | h <;> rw [h] <;> decide

/-- Re-resolving the status of a record that already carries a resolved
status changes nothing. -/
theorem finalStatusFor_stable (x : Option AssignmentRec) (a : PAssignment)
    (r : AssignmentRec) (hr : r.status = finalStatusFor x a) :
    finalStatusFor (some r) a = r.status := by
  cases x with
  | none =>
    simp only [finalStatusFor] at hr ⊢
    rw [hr, if_neg (canvasStatusOf_ne_in_progress a)]
  | some r0 =>
    simp only [finalStatusFor] at hr ⊢
    by_cases h0 : r0.status = "in_progress"
    · rw [if_pos h0] at hr
      simp [hr]
    · rw [if_neg h0] at hr
      rw [hr, if_neg (canvasStatusOf_ne_in_progress a)]

/-- Looking up the upserted key finds the modified (or inserted) record. -/
theorem findAssignment_upsert_self (d : AssignmentSet) (now : Int)
    (s : List AssignmentRec) :
    findAssignment d.user_id d.canvas_id (upsertAssignment d now s) =
      some (match findAssignment d.user_id d.canvas_id s with
            | some r => applySet d r
            | none => insertOnUpsert d now) := by
  induction s with
  | nil =>
    simp [findAssignment, upsertAssignment, insertOnUpsert, List.find?]
  | cons r rs ih =>
    by_cases hm : ((r.canvas_id == d.canvas_id) && (r.user_id == d.user_id)) = true
    · simp only [findAssignment, upsertAssignment, if_pos hm, List.find?, hm]
      have hp : (((applySet d r).canvas_id == d.canvas_id)
          && ((applySet d r).user_id == d.user_id)) = true := by
        simp [applySet]
      simp [hp]
    · have hm' : ((r.canvas_id == d.canvas_id) && (r.user_id == d.user_id)) = false :=
        Bool.not_eq_true _ ▸ (by simpa using hm)
      simp only [findAssignment, upsertAssignment, if_neg hm, List.find?, hm'] at *
      simpa using ih

/-- Upserting one key leaves lookups of any other key unchanged. -/
theorem findAssignment_upsert_frame (uid aid : String) (d : AssignmentSet) (now : Int)
    (s : List AssignmentRec) (h : aid ≠ d.canvas_id ∨ uid ≠ d.user_id) :
    findAssignment uid aid (upsertAssignment d now s) = findAssignment uid aid s := by
  have hpred : ∀ (x : AssignmentRec), x.canvas_id = d.canvas_id → x.user_id = d.user_id →
      ((x.canvas_id == aid) && (x.user_id == uid)) = false := by
    intro x h1 h2
    rcases h with h | h
    · have hb : (x.canvas_id == aid) = false := by
        rw [h1]
        exact beq_eq_false_iff_ne.mpr (fun hc => h hc.symm)
      simp [hb]
    · have hb : (x.user_id == uid) = false := by
        rw [h2]
        exact beq_eq_false_iff_ne.mpr (fun hc => h hc.symm)
      simp [hb]
  induction s with
  | nil =>
    simp only [findAssignment, upsertAssignment, List.find?]
    rw [hpred (insertOnUpsert d now) rfl rfl]
  | cons r rs ih =>
    by_cases hm : ((r.canvas_id == d.canvas_id) && (r.user_id == d.user_id)) = true
    · have hm2 := hm
      rw [Bool.and_eq_true] at hm2
      have h1 : r.canvas_id = d.canvas_id := eq_of_beq hm2.1
      have h2 : r.user_id = d.user_id := eq_of_beq hm2.2
      simp only [findAssignment, upsertAssignment, if_pos hm, List.find?]
      rw [hpred (applySet d r) rfl rfl, hpred r h1 h2]
    · have hm' : ((r.canvas_id == d.canvas_id) && (r.user_id == d.user_id)) = false := by
        simpa using hm
      simp only [findAssignment, upsertAssignment, if_neg hm, List.find?]
      cases hp : ((r.canvas_id == aid) && (r.user_id == uid)) with
      | true => rfl
      | false => simpa [findAssignment] using ih

/-- An upsert whose $set document is already absorbed by the first
matching record is a no-op. -/
theorem upsertAssignment_eq_self (d : AssignmentSet) (now : Int)
    (s : List AssignmentRec) (r : AssignmentRec)
    (hf : findAssignment d.user_id d.canvas_id s = some r)
    (hr : applySet d r = r) :
    upsertAssignment d now s = s := by
  induction s with
  | nil => simp [findAssignment, List.find?] at hf
  | cons x xs ih =>
    by_cases hm : ((x.canvas_id == d.canvas_id) && (x.user_id == d.user_id)) = true
    · simp only [findAssignment, List.find?, hm] at hf
      injection hf with hf
      subst hf
      simp only [upsertAssignment, if_pos hm, hr]
    · have hm' : ((x.canvas_id == d.canvas_id) && (x.user_id == d.user_id)) = false := by
        simpa using hm
      simp only [findAssignment, List.find?, hm'] at hf
      simp only [upsertAssignment, if_neg hm]
      rw [ih hf]

/-- Lookup after processing one assignment: the record at its key is the
computed document applied over whatever was there. -/
theorem findAssignment_syncOne_self (uid : String) (c : PCourse) (now : Int)
    (s : List AssignmentRec) (a : PAssignment) :
    findAssignment uid a.id (syncOneAssignment uid c now s a) =
      some (match findAssignment uid a.id s with
            | some r =>
              applySet (assignmentSetDoc uid c a (finalStatusFor (findAssignment uid a.id s) a) now) r
            | none =>
              insertOnUpsert (assignmentSetDoc uid c a (finalStatusFor (findAssignment uid a.id s) a) now) now) := by
  exact findAssignment_upsert_self
    (assignmentSetDoc uid c a (finalStatusFor (findAssignment uid a.id s) a) now) now s

/-- Processing one assignment leaves lookups of other keys unchanged. -/
theorem findAssignment_syncOne_frame (uid uid2 aid : String) (c : PCourse) (now : Int)
    (s : List AssignmentRec) (a : PAssignment) (h : aid ≠ a.id ∨ uid2 ≠ uid) :
    findAssignment uid2 aid (syncOneAssignment uid c now s a) =
      findAssignment uid2 aid s := by
  exact findAssignment_upsert_frame uid2 aid _ now s h

/-! ## C3 : the provider status mapping -/

/-- C3: for a record that is not already in_progress (or absent), the
status stored by the sync is the image of the provider workflow state:
submitted / pending_review / graded / complete map to "completed", and
every other state — including "unsubmitted" and a missing submission
object — maps to "not_started". -/
theorem C3_status_mapping (uid : String) (c : PCourse) (now : Int)
    (s : List AssignmentRec) (a : PAssignment)
    (hni : ∀ r, findAssignment uid a.id s = some r → r.status ≠ "in_progress") :
    ∃ stored, findAssignment uid a.id (syncOneAssignment uid c now s a) = some stored ∧
      stored.status = canvasStatusOf a ∧
      (workflowStateOf a ∈ (["submitted", "pending_review", "graded", "complete"] : List String) →
        stored.status = "completed") ∧
      (workflowStateOf a ∉ (["submitted", "pending_review", "graded", "complete"] : List String) →
        stored.status = "not_started") ∧
      (a.submission = none → stored.status = "not_started") := by
  have hstat : finalStatusFor (findAssignment uid a.id s) a = canvasStatusOf a := by
    cases hf : findAssignment uid a.id s with
    | none => rfl
    | some r =>
      simp only [finalStatusFor]
      rw [if_neg (hni r hf)]
  rw [findAssignment_syncOne_self]
  cases hf : findAssignment uid a.id s with
  | none =>
    rw [hf] at hstat
    refine ⟨_, rfl, ?_, ?_, ?_, ?_⟩
    · rw [insertOnUpsert_status, assignmentSetDoc, hstat]
    · intro hmem
      rw [insertOnUpsert_status, assignmentSetDoc, hstat, canvasStatusOf, if_pos hmem]
    · intro hmem
      rw [insertOnUpsert_status, assignmentSetDoc, hstat, canvasStatusOf, if_neg hmem]
    · intro hsub
      rw [insertOnUpsert_status, assignmentSetDoc, hstat, canvasStatusOf, if_neg ?_]
      rw [workflowStateOf, hsub]
      decide
  | some r =>
    rw [hf] at hstat
    refine ⟨_, rfl, ?_, ?_, ?_, ?_⟩
    · rw [applySet_status, assignmentSetDoc, hstat]
    · intro hmem
      rw [applySet_status, assignmentSetDoc, hstat, canvasStatusOf, if_pos hmem]
    · intro hmem
      rw [applySet_status, assignmentSetDoc, hstat, canvasStatusOf, if_neg hmem]
    · intro hsub
      rw [applySet_status, assignmentSetDoc, hstat, canvasStatusOf, if_neg ?_]
      rw [workflowStateOf, hsub]
      decide

/-- Witness for C3 at a concrete submitted assignment over an empty store. -/
theorem C3_witness :
    ∃ stored,
      findAssignment "u1" pAssignExample.id
          (syncOneAssignment "u1" pCourseExample 5 [] pAssignExample) = some stored ∧
      stored.status = canvasStatusOf pAssignExample ∧
      (workflowStateOf pAssignExample ∈
          (["submitted", "pending_review", "graded", "complete"] : List String) →
        stored.status = "completed") ∧
      (workflowStateOf pAssignExample ∉
          (["submitted", "pending_review", "graded", "complete"] : List String) →
        stored.status = "not_started") ∧
      (pAssignExample.submission = none → stored.status = "not_started") :=
  C3_status_mapping "u1" pCourseExample 5 [] pAssignExample
    (by intro r h; simp [findAssignment, List.find?] at h)

/-! ## C2 : the in_progress preservation invariant -/

theorem statusPreserved_refl (s : List AssignmentRec) : statusPreserved s s :=
  ⟨le_refl _, fun _ _ => ⟨Iff.rfl, Or.inl rfl⟩, fun _ h0 hi => absurd hi (by omega)⟩

theorem statusPreserved_trans (s t u : List AssignmentRec)
    (h1 : statusPreserved s t) (h2 : statusPreserved t u) : statusPreserved s u := by
  obtain ⟨l1, p1, n1⟩ := h1
  obtain ⟨l2, p2, n2⟩ := h2
  refine ⟨le_trans l1 l2, ?_, ?_⟩
  · intro i hi
    have hit : i < t.length := lt_of_lt_of_le hi l1
    obtain ⟨iff1, w1⟩ := p1 i hi
    obtain ⟨iff2, w2⟩ := p2 i hit
    refine ⟨iff1.trans iff2, ?_⟩
    rcases w2 with h | h | h
    · rw [h]
      exact w1
    · exact Or.inr (Or.inl h)
    · exact Or.inr (Or.inr h)
  · intro i h0 hi
    by_cases hit : i < t.length
    · obtain ⟨iff2, w2⟩ := p2 i hit
      have ht := n1 i h0 hit
      rcases w2 with h | h | h
      · rw [h]
        exact ht
      · exact Or.inl h
      · exact Or.inr h
    · exact n2 i (by omega) hi

theorem statusPreserved_cons (x : AssignmentRec) (xs t : List AssignmentRec)
    (h : statusPreserved xs t) : statusPreserved (x :: xs) (x :: t) := by
  obtain ⟨h1, h2, h3⟩ := h
  refine ⟨by simpa using Nat.succ_le_succ h1, ?_, ?_⟩
  · intro i hi
    cases i with
    | zero => exact ⟨Iff.rfl, Or.inl rfl⟩
    | succ n =>
      have hn : n < xs.length := by simpa using hi
      simpa [List.getD_cons_succ] using h2 n hn
  · intro i h0 hi
    cases i with
    | zero => simp at h0
    | succ n =>
      have := h3 n (by simpa using h0) (by simpa using hi)
      simpa [List.getD_cons_succ] using this

/-- How a single upsert may change statuses, given how its document's
status relates to the record it will hit. -/
theorem statusPreserved_upsert (d : AssignmentSet) (now : Int) (s : List AssignmentRec)
    (hip : d.status = "in_progress" ↔
      (∃ r, findAssignment d.user_id d.canvas_id s = some r ∧ r.status = "in_progress"))
    (hwrites : ∀ r, findAssignment d.user_id d.canvas_id s = some r →
      (d.status = r.status ∨ d.status = "not_started" ∨ d.status = "completed"))
    (hnew : findAssignment d.user_id d.canvas_id s = none →
      (d.status = "not_started" ∨ d.status = "completed")) :
    statusPreserved s (upsertAssignment d now s) := by
  induction s with
  | nil =>
    refine ⟨by simp [upsertAssignment], ?_, ?_⟩
    · intro i hi
      simp at hi
    · intro i h0 hi
      simp only [upsertAssignment, List.length_cons, List.length_nil] at hi
      have hz : i = 0 := by omega
      subst hz
      simp only [upsertAssignment, List.getD_cons_zero, insertOnUpsert_status]
      exact hnew rfl
  | cons x xs ih =>
    by_cases hm : ((x.canvas_id == d.canvas_id) && (x.user_id == d.user_id)) = true
    · have hfind : findAssignment d.user_id d.canvas_id (x :: xs) = some x := by
        simp [findAssignment, List.find?, hm]
      rw [hfind] at hip
      simp only [upsertAssignment, if_pos hm]
      refine ⟨by simp, ?_, ?_⟩
      · intro i hi
        cases i with
        | zero =>
          refine ⟨?_, ?_⟩
          · simp only [List.getD_cons_zero, applySet_status]
            constructor
            · intro hx
              exact hip.mpr ⟨x, rfl, hx⟩
            · intro hd
              obtain ⟨r, hr, hrs⟩ := hip.mp hd
              injection hr with hr
              subst hr
              exact hrs
          · simp only [List.getD_cons_zero, applySet_status]
            exact hwrites x hfind
        | succ n => exact ⟨Iff.rfl, Or.inl rfl⟩
      · intro i h0 hi
        simp at h0 hi
        omega
    · have hm' : ((x.canvas_id == d.canvas_id) && (x.user_id == d.user_id)) = false := by
        simpa using hm
      have hstep : findAssignment d.user_id d.canvas_id (x :: xs) =
          findAssignment d.user_id d.canvas_id xs := by
        simp [findAssignment, List.find?, hm']
      rw [hstep] at hip hwrites hnew
      simp only [upsertAssignment, if_neg hm]
      exact statusPreserved_cons x xs _ (ih hip hwrites hnew)

/-- One processed assignment respects the status discipline. -/
theorem statusPreserved_syncOne (uid : String) (c : PCourse) (now : Int)
    (s : List AssignmentRec) (a : PAssignment) :
    statusPreserved s (syncOneAssignment uid c now s a) := by
  unfold syncOneAssignment
  generalize hFS : finalStatusFor (findAssignment uid a.id s) a = f
  apply statusPreserved_upsert
  · show f = "in_progress" ↔
      ∃ r, findAssignment uid a.id s = some r ∧ r.status = "in_progress"
    rw [← hFS]
    cases hf : findAssignment uid a.id s with
    | none =>
      simp only [finalStatusFor]
      constructor
      · intro hcs
        exact absurd hcs (canvasStatusOf_ne_in_progress a)
      · rintro ⟨r, hr, -⟩
        exact absurd hr (by simp)
    | some r =>
      simp only [finalStatusFor]
      by_cases h0 : r.status = "in_progress"
      · rw [if_pos h0]
        exact ⟨fun _ => ⟨r, rfl, h0⟩, fun _ => rfl⟩
      · rw [if_neg h0]
        constructor
        · intro hcs
          exact absurd hcs (canvasStatusOf_ne_in_progress a)
        · rintro ⟨r2, hr2, hrs⟩
          injection hr2 with hr2
          subst hr2
          exact absurd hrs h0
  · intro r hf
    have hf2 : findAssignment uid a.id s = some r := hf
    show f = r.status ∨ f = "not_started" ∨ f = "completed"
    rw [← hFS, hf2]
    simp only [finalStatusFor]
    by_cases h0 : r.status = "in_progress"
    · rw [if_pos h0]
      exact Or.inl h0.symm
    · rw [if_neg h0]
      rcases canvasStatusOf_cases a with h | h
      · exact Or.inr (Or.inr h)
      · exact Or.inr (Or.inl h)
  · intro hf
    have hf2 : findAssignment uid a.id s = none := hf
    show f = "not_started" ∨ f = "completed"
    rw [← hFS, hf2]
    simp only [finalStatusFor]
    rcases canvasStatusOf_cases a with h | h
    · exact Or.inr h
    · exact Or.inl h

theorem statusPreserved_foldl_syncOne (uid : String) (c : PCourse) (now : Int) :
    ∀ (as : List PAssignment) (s : List AssignmentRec),
      statusPreserved s (as.foldl (syncOneAssignment uid c now) s) := by
  intro as
  induction as with
  | nil => exact fun s => statusPreserved_refl s
  | cons a rest ih =>
    intro s
    simp only [List.foldl_cons]
    exact statusPreserved_trans _ _ _ (statusPreserved_syncOne uid c now s a)
      (ih (syncOneAssignment uid c now s a))

theorem statusPreserved_syncCourse (uid : String) (now : Int) (tracked : List String)
    (st : CanvasState) (c : PCourse) :
    statusPreserved st.assignments (syncCourse uid now tracked st c).assignments := by
  unfold syncCourse
  split
  · cases hfetch : c.assignmentsFetch with
    | some as => exact statusPreserved_foldl_syncOne uid c now as st.assignments
    | none => exact statusPreserved_refl _
  · exact statusPreserved_refl _

/-- C2: a course-sync pass keeps every in_progress record in_progress
(positionally), never turns a non-in_progress record into in_progress,
writes only the old status or a Canvas-derived "not_started"/"completed"
over existing records, and only Canvas-derived statuses into new ones. -/
theorem C2_sync_preserves_in_progress (uid : String) (tracked : List String)
    (courses : List PCourse) (now : Int) (st : CanvasState) :
    statusPreserved st.assignments
      (sync_canvas_data uid tracked courses now st).assignments := by
  unfold sync_canvas_data
  induction courses generalizing st with
  | nil => exact statusPreserved_refl _
  | cons c cs ih =>
    simp only [List.foldl_cons]
    exact statusPreserved_trans _ _ _
      (statusPreserved_syncCourse uid now tracked st c)
      (ih (syncCourse uid now tracked st c))

/-- Witness for C2: a store holding one in_progress record, synced against
a provider snapshot reporting that assignment as submitted. -/
theorem C2_witness :
    statusPreserved [aRecInProgress]
      (sync_canvas_data "u1" ["c1"] [pCourseExample] 5
        ⟨[], [aRecInProgress]⟩).assignments :=
  C2_sync_preserves_in_progress "u1" ["c1"] [pCourseExample] 5 ⟨[], [aRecInProgress]⟩

/-! ## C5 : recurrence expansion -/

theorem get_weekday_index_lt (day_name : String) : get_weekday_index day_name < 7 := by
  simp only [get_weekday_index]
  split_ifs <;> decide

/-- After the search loop, either the weekday matches or the term end has
been passed (the guarantee needs k remaining fuel steps to the match). -/
theorem firstDayLoop_post (fuel w tEnd d k : Nat) (hk : k < fuel)
    (hmod : (d + k) % 7 = w) :
    (firstDayLoop w tEnd d fuel) % 7 = w ∨ tEnd < firstDayLoop w tEnd d fuel := by
  induction fuel generalizing d k with
  | zero => omega
  | succ f ih =>
    by_cases h7 : d % 7 = w
    · left
      simp [firstDayLoop, h7]
    · have hk0 : k ≠ 0 := by
        intro h0
        subst h0
        simp at hmod
        exact h7 hmod
      obtain ⟨k2, rfl⟩ : ∃ k2, k = k2 + 1 := ⟨k - 1, by omega⟩
      by_cases hb : tEnd < d + 1
      · right
        simp only [firstDayLoop, if_neg h7, if_pos hb]
        exact hb
      · have hrec := ih (d + 1) k2 (by omega) (by omega)
        simp only [firstDayLoop, if_neg h7, if_neg hb]
        exact hrec

theorem findFirstDay_post (w ts te : Nat) (hw : w < 7) :
    (findFirstDay w ts te) % 7 = w ∨ te < findFirstDay w ts te := by
  exact firstDayLoop_post 7 w te ts ((w + 7 - ts % 7) % 7) (by omega) (by omega)

/-- Every enumerated occurrence lies between the start and the term end
and keeps the weekday of the start. -/
theorem rruleWeeklyAux_mem (fuel : Nat) : ∀ d e x, x ∈ rruleWeeklyAux fuel d e →
    d ≤ x ∧ x % 7 = d % 7 ∧ x ≤ e := by
  induction fuel with
  | zero =>
    intro d e x hx
    simp [rruleWeeklyAux] at hx
  | succ f ih =>
    intro d e x hx
    simp only [rruleWeeklyAux] at hx
    split at hx
    · simp at hx
    · rename_i hde
      rcases List.mem_cons.mp hx with rfl | hx2
      · exact ⟨le_refl _, rfl, by omega⟩
      · have hr := ih (d + 7) e x hx2
        exact ⟨by omega, by omega, hr.2.2⟩

/-- C5: the expansion of a recurring class is deterministic — for a fixed
request the date-stamped instance list does not depend on the call time —
and every generated instance falls on one of the requested weekdays. -/
theorem C5_expansion_deterministic_weekdays (ce : ClassEventCreateM) (uid : String)
    (n1 n2 : Nat) :
    ((generate_class_events ce uid n1).map (List.map classInstanceOf) =
       (generate_class_events ce uid n2).map (List.map classInstanceOf)) ∧
    (∀ evs, generate_class_events ce uid n1 = Except.ok evs →
       ∀ ev ∈ evs, ev.day % 7 ∈ ce.days_of_week.map get_weekday_index) := by
  constructor
  · unfold generate_class_events
    cases hs : parse_time_str ce.start_time with
    | error e => rfl
    | ok st =>
      cases he : parse_time_str ce.end_time with
      | error e => rfl
      | ok et =>
        simp only [Except.map]
        rw [← List.map_flatMap, ← List.map_flatMap, List.map_map, List.map_map]
        rfl
  · intro evs hgen ev hev
    unfold generate_class_events at hgen
    cases hs : parse_time_str ce.start_time with
    | error e =>
      rw [hs] at hgen
      exact absurd hgen (by simp)
    | ok st =>
      rw [hs] at hgen
      cases he : parse_time_str ce.end_time with
      | error e =>
        rw [he] at hgen
        exact absurd hgen (by simp)
      | ok et =>
        rw [he] at hgen
        injection hgen with hgen
        subst hgen
        rw [List.mem_flatMap] at hev
        obtain ⟨w, hw, hev⟩ := hev
        rw [List.mem_map] at hev
        obtain ⟨occ, hocc, rfl⟩ := hev
        obtain ⟨dn, hdn, rfl⟩ := List.mem_map.mp hw
        have hw7 := get_weekday_index_lt dn
        have hm := rruleWeeklyAux_mem _ _ _ _ hocc
        rcases findFirstDay_post (get_weekday_index dn) (ce.term_start_min / 1440)
            (ce.term_end_min / 1440) hw7 with hp | hp
        · show occ % 7 ∈ ce.days_of_week.map get_weekday_index
          rw [hm.2.1, hp]
          exact hw
        · exfalso
          omega

/-- Witness for C5: the concrete Tuesday/Thursday request expanded at two
different call times. -/
theorem C5_witness :
    ((generate_class_events ceExample "u1" 7).map (List.map classInstanceOf) =
       (generate_class_events ceExample "u1" 99).map (List.map classInstanceOf)) ∧
    (∀ ev ∈ ceExampleEvents,
       ev.day % 7 ∈ ceExample.days_of_week.map get_weekday_index) :=
  ⟨(C5_expansion_deterministic_weekdays ceExample "u1" 7 99).1,
   fun ev h =>
     (C5_expansion_deterministic_weekdays ceExample "u1" 7 99).2 ceExampleEvents rfl ev h⟩

/-! ## C6 : term-date validation -/

/-- C6 counterexample: a request with well-formed times whose term end
equals its term start — on or after the start, so the claim says no
validation error — is rejected by create_class_events, whose check is
term_end ≤ term_start. -/
theorem C6_counterexample :
    parse_time_str ceEqualTerm.start_time = Except.ok (11, 0) ∧
    parse_time_str ceEqualTerm.end_time = Except.ok (13, 0) ∧
    ceEqualTerm.term_start_min ≤ ceEqualTerm.term_end_min ∧
    create_class_events ceEqualTerm "u1" 0 =
      Except.error "Term end date must be after term start date" :=
  ⟨rfl, rfl, by decide, rfl⟩

/-- C6 amended: for requests with well-formed HH:MM times, the term-date
validation error is raised exactly when term_end ≤ term_start (equality is
rejected too); a rejected request writes nothing, and otherwise the
expansion result is returned and written. -/
theorem C6_validation_boundary (ce : ClassEventCreateM) (uid : String) (now : Nat)
    (hs : ∃ p, parse_time_str ce.start_time = Except.ok p)
    (he : ∃ p, parse_time_str ce.end_time = Except.ok p) :
    ((∃ msg, create_class_events ce uid now = Except.error msg) ↔
       ce.term_end_min ≤ ce.term_start_min) ∧
    (ce.term_end_min ≤ ce.term_start_min →
       create_class_events ce uid now =
         Except.error "Term end date must be after term start date" ∧
       writtenClassEvents (create_class_events ce uid now) = []) ∧
    (ce.term_start_min < ce.term_end_min →
       ∃ evs resp, generate_class_events ce uid now = Except.ok evs ∧
         create_class_events ce uid now = Except.ok (evs, resp)) := by
  obtain ⟨ps, hps⟩ := hs
  obtain ⟨pe, hpe⟩ := he
  obtain ⟨evs, hevs⟩ : ∃ evs, generate_class_events ce uid now = Except.ok evs := by
    unfold generate_class_events
    rw [hps, hpe]
    exact ⟨_, rfl⟩
  by_cases hle : ce.term_end_min ≤ ce.term_start_min
  · have herr : create_class_events ce uid now =
        Except.error "Term end date must be after term start date" := by
      unfold create_class_events
      rw [if_pos hle]
    refine ⟨⟨fun _ => hle, fun _ => ⟨_, herr⟩⟩, fun _ => ⟨herr, ?_⟩,
      fun hlt => absurd hlt (by omega)⟩
    rw [herr]
    rfl
  · have hok : ∃ resp, create_class_events ce uid now = Except.ok (evs, resp) := by
      cases evs with
      | nil =>
        refine ⟨{ success := true,
                  message := "No events were created. Check that your term dates and days of week are valid.",
                  events_created := 0 }, ?_⟩
        simp [create_class_events, if_neg hle, hevs]
      | cons a l =>
        refine ⟨{ success := true,
                  message := "Successfully created " ++ toString (a :: l).length ++ " class events",
                  events_created := (a :: l).length }, ?_⟩
        simp [create_class_events, if_neg hle, hevs]
    obtain ⟨resp, hok⟩ := hok
    refine ⟨⟨?_, fun hc => absurd hc hle⟩, fun hc => absurd hc hle,
      fun _ => ⟨evs, resp, hevs, hok⟩⟩
    rintro ⟨msg, hmsg⟩
    rw [hok] at hmsg
    exact absurd hmsg (by simp)

/-- Witness for C6 at the concrete Tuesday/Thursday request. -/
theorem C6_witness :
    ((∃ msg, create_class_events ceExample "u1" 7 = Except.error msg) ↔
       ceExample.term_end_min ≤ ceExample.term_start_min) ∧
    (ceExample.term_end_min ≤ ceExample.term_start_min →
       create_class_events ceExample "u1" 7 =
         Except.error "Term end date must be after term start date" ∧
       writtenClassEvents (create_class_events ceExample "u1" 7) = []) ∧
    (ceExample.term_start_min < ceExample.term_end_min →
       ∃ evs resp, generate_class_events ceExample "u1" 7 = Except.ok evs ∧
         create_class_events ceExample "u1" 7 = Except.ok (evs, resp)) :=
  C6_validation_boundary ceExample "u1" 7 ⟨(11, 0), rfl⟩ ⟨(13, 0), rfl⟩

/-! ## C4 : idempotence of the course sync -/

theorem canvasState_ext (x y : CanvasState)
    (h1 : x.canvas_courses = y.canvas_courses) (h2 : x.assignments = y.assignments) :
    x = y := by
  cases x
  cases y
  simp_all

theorem findCourse_upsert_self (d : CourseRec) (s : List CourseRec) :
    findCourse d.user_id d.canvas_id (upsertCourse d s) = some d := by
  induction s with
  | nil => simp [findCourse, upsertCourse, List.find?]
  | cons r rs ih =>
    by_cases hm : ((r.canvas_id == d.canvas_id) && (r.user_id == d.user_id)) = true
    · simp only [findCourse, upsertCourse, if_pos hm]
      simp [List.find?]
    · have hm' : ((r.canvas_id == d.canvas_id) && (r.user_id == d.user_id)) = false := by
        simpa using hm
      simp only [findCourse, upsertCourse, if_neg hm, List.find?, hm']
      simpa [findCourse] using ih

theorem findCourse_upsert_frame (uid cid : String) (d : CourseRec) (s : List CourseRec)
    (h : cid ≠ d.canvas_id ∨ uid ≠ d.user_id) :
    findCourse uid cid (upsertCourse d s) = findCourse uid cid s := by
  have hpred : ∀ (x : CourseRec), x.canvas_id = d.canvas_id → x.user_id = d.user_id →
      ((x.canvas_id == cid) && (x.user_id == uid)) = false := by
    intro x h1 h2
    rcases h with h | h
    · have hb : (x.canvas_id == cid) = false := by
        rw [h1]
        exact beq_eq_false_iff_ne.mpr (fun hc => h hc.symm)
      simp [hb]
    · have hb : (x.user_id == uid) = false := by
        rw [h2]
        exact beq_eq_false_iff_ne.mpr (fun hc => h hc.symm)
      simp [hb]
  induction s with
  | nil =>
    simp only [findCourse, upsertCourse, List.find?]
    rw [hpred d rfl rfl]
  | cons r rs ih =>
    by_cases hm : ((r.canvas_id == d.canvas_id) && (r.user_id == d.user_id)) = true
    · have hm2 := hm
      rw [Bool.and_eq_true] at hm2
      have h1 : r.canvas_id = d.canvas_id := eq_of_beq hm2.1
      have h2 : r.user_id = d.user_id := eq_of_beq hm2.2
      simp only [findCourse, upsertCourse, if_pos hm, List.find?]
      rw [hpred d rfl rfl, hpred r h1 h2]
    · have hm' : ((r.canvas_id == d.canvas_id) && (r.user_id == d.user_id)) = false := by
        simpa using hm
      simp only [findCourse, upsertCourse, if_neg hm, List.find?]
      cases hp : ((r.canvas_id == cid) && (r.user_id == uid)) with
      | true => rfl
      | false => simpa [findCourse] using ih

theorem upsertCourse_eq_self (d : CourseRec) (s : List CourseRec)
    (hf : findCourse d.user_id d.canvas_id s = some d) :
    upsertCourse d s = s := by
  induction s with
  | nil => simp [findCourse, List.find?] at hf
  | cons x xs ih =>
    by_cases hm : ((x.canvas_id == d.canvas_id) && (x.user_id == d.user_id)) = true
    · simp only [findCourse, List.find?, hm] at hf
      injection hf with hf
      subst hf
      simp [upsertCourse]
    · have hm' : ((x.canvas_id == d.canvas_id) && (x.user_id == d.user_id)) = false := by
        simpa using hm
      simp only [findCourse, List.find?, hm'] at hf
      simp only [upsertCourse, if_neg hm]
      rw [ih hf]

/-- Processing one assignment leaves it settled. -/
theorem settledFor_syncOne (uid : String) (c : PCourse) (now : Int)
    (s : List AssignmentRec) (a : PAssignment) :
    settledFor uid now (c, a) (syncOneAssignment uid c now s a) := by
  have hself := findAssignment_syncOne_self uid c now s a
  cases hf : findAssignment uid a.id s with
  | some r =>
    rw [hf] at hself
    refine ⟨_, hself, ?_⟩
    have h1 : (applySet (assignmentSetDoc uid c a (finalStatusFor (some r) a) now) r).status
        = finalStatusFor (some r) a := rfl
    have h2 := finalStatusFor_stable (some r) a _ h1
    rw [h2]
    exact applySet_applySet _ _
  | none =>
    rw [hf] at hself
    refine ⟨_, hself, ?_⟩
    have h1 : (insertOnUpsert (assignmentSetDoc uid c a (finalStatusFor none a) now) now).status
        = finalStatusFor none a := rfl
    have h2 := finalStatusFor_stable none a _ h1
    rw [h2]
    exact applySet_insertOnUpsert _ _

/-- Settledness survives processing an assignment with a different id. -/
theorem settledFor_preserved (uid : String) (now : Int) (p : PCourse × PAssignment)
    (s : List AssignmentRec) (c2 : PCourse) (a2 : PAssignment)
    (hne : p.2.id ≠ a2.id) (h : settledFor uid now p s) :
    settledFor uid now p (syncOneAssignment uid c2 now s a2) := by
  obtain ⟨r, hf, habs⟩ := h
  refine ⟨r, ?_, habs⟩
  rw [findAssignment_syncOne_frame uid uid p.2.id c2 now s a2 (Or.inl hne)]
  exact hf

/-- Processing a settled assignment is a no-op. -/
theorem settledFor_id (uid : String) (now : Int) (p : PCourse × PAssignment)
    (s : List AssignmentRec) (h : settledFor uid now p s) :
    syncOneAssignment uid p.1 now s p.2 = s := by
  obtain ⟨r, hf, habs⟩ := h
  unfold syncOneAssignment
  rw [hf]
  exact upsertAssignment_eq_self _ now s r hf habs

/-- Settledness survives a whole fold over assignments with other ids. -/
theorem settledFor_foldl (uid : String) (now : Int) (p : PCourse × PAssignment) :
    ∀ (ps : List (PCourse × PAssignment)) (s : List AssignmentRec),
      (∀ q ∈ ps, p.2.id ≠ q.2.id) → settledFor uid now p s →
      settledFor uid now p
        (ps.foldl (fun s2 q => syncOneAssignment uid q.1 now s2 q.2) s) := by
  intro ps
  induction ps with
  | nil => exact fun s _ h => h
  | cons q qs ih =>
    intro s hne h
    simp only [List.foldl_cons]
    exact ih _ (fun x hx => hne x (List.mem_cons_of_mem q hx))
      (settledFor_preserved uid now p s q.1 q.2 (hne q (List.mem_cons_self q qs)) h)

/-- After one pass over a duplicate-free batch, every item is settled. -/
theorem foldl_settles (uid : String) (now : Int) :
    ∀ (ps : List (PCourse × PAssignment)) (s : List AssignmentRec),
      (ps.map (fun q => q.2.id)).Nodup →
      ∀ p ∈ ps, settledFor uid now p
        (ps.foldl (fun s2 q => syncOneAssignment uid q.1 now s2 q.2) s) := by
  intro ps
  induction ps with
  | nil => intro s _ p hp; simp at hp
  | cons q qs ih =>
    intro s hnd p hp
    have hnd2 := hnd
    rw [List.map_cons, List.nodup_cons] at hnd2
    simp only [List.foldl_cons]
    rcases List.mem_cons.mp hp with rfl | hp2
    · refine settledFor_foldl uid now p qs _ ?_ (settledFor_syncOne uid p.1 now s p.2)
      intro x hx hc
      exact hnd2.1 (hc ▸ List.mem_map_of_mem (fun y => y.2.id) hx)
    · exact ih _ hnd2.2 p hp2

/-- A second pass over a batch that is already settled is the identity. -/
theorem foldl_settled_id (uid : String) (now : Int) :
    ∀ (ps : List (PCourse × PAssignment)) (s : List AssignmentRec),
      (∀ p ∈ ps, settledFor uid now p s) →
      ps.foldl (fun s2 q => syncOneAssignment uid q.1 now s2 q.2) s = s := by
  intro ps
  induction ps with
  | nil => exact fun s _ => rfl
  | cons q qs ih =>
    intro s h
    simp only [List.foldl_cons]
    rw [settledFor_id uid now q s (h q (List.mem_cons_self q qs))]
    exact ih s (fun p hp => h p (List.mem_cons_of_mem q hp))

/-- The assignments component of a sync pass is the flat fold of its
processed (course, assignment) pairs. -/
theorem sync_assignments_eq (uid : String) (tracked : List String)
    (courses : List PCourse) (now : Int) (st : CanvasState) :
    (sync_canvas_data uid tracked courses now st).assignments =
      (processedPairs tracked courses).foldl
        (fun s p => syncOneAssignment uid p.1 now s p.2) st.assignments := by
  induction courses generalizing st with
  | nil => rfl
  | cons c cs ih =>
    have hstep : sync_canvas_data uid tracked (c :: cs) now st
        = sync_canvas_data uid tracked cs now (syncCourse uid now tracked st c) := rfl
    rw [hstep, ih (syncCourse uid now tracked st c)]
    unfold processedPairs
    rw [show (c :: cs).flatMap (fun c2 =>
        if c2.id ∈ tracked then
          match c2.assignmentsFetch with
          | some as => as.map (fun a => (c2, a))
          | none => []
        else []) = _ ++ cs.flatMap _ from rfl]
    rw [List.foldl_append]
    have hc : (syncCourse uid now tracked st c).assignments =
        (if c.id ∈ tracked then
          match c.assignmentsFetch with
          | some as => as.map (fun a => (c, a))
          | none => []
        else []).foldl (fun s p => syncOneAssignment uid p.1 now s p.2) st.assignments := by
      unfold syncCourse
      by_cases htr : c.id ∈ tracked
      · rw [if_pos htr, if_pos htr]
        cases hfetch : c.assignmentsFetch with
        | some as => rw [List.foldl_map]
        | none => rfl
      · rw [if_neg htr, if_neg htr]
        rfl
    rw [hc]

/-- The courses component of a sync pass is the fold of the processed
course documents. -/
theorem sync_courses_eq (uid : String) (tracked : List String)
    (courses : List PCourse) (now : Int) (st : CanvasState) :
    (sync_canvas_data uid tracked courses now st).canvas_courses =
      (processedCourses tracked courses).foldl
        (fun l c => upsertCourse (courseSetDoc uid c now) l) st.canvas_courses := by
  induction courses generalizing st with
  | nil => rfl
  | cons c cs ih =>
    have hstep : sync_canvas_data uid tracked (c :: cs) now st
        = sync_canvas_data uid tracked cs now (syncCourse uid now tracked st c) := rfl
    rw [hstep, ih (syncCourse uid now tracked st c)]
    unfold processedCourses
    rw [List.filter_cons]
    by_cases htr : c.id ∈ tracked
    · rw [if_pos (by simpa using htr)]
      have hc : (syncCourse uid now tracked st c).canvas_courses =
          upsertCourse (courseSetDoc uid c now) st.canvas_courses := by
        unfold syncCourse
        rw [if_pos htr]
        cases hfetch : c.assignmentsFetch with
        | some as => rfl
        | none => rfl
      rw [hc, List.foldl_cons]
    · rw [if_neg (by simpa using htr)]
      have hc : (syncCourse uid now tracked st c).canvas_courses = st.canvas_courses := by
        unfold syncCourse
        rw [if_neg htr]
      rw [hc]

/-- Course-document settledness survives upserting other course ids. -/
theorem settledCourse_foldl (uid : String) (now : Int) (c : PCourse) :
    ∀ (cs : List PCourse) (l : List CourseRec),
      (∀ q ∈ cs, c.id ≠ q.id) → settledCourse uid now c l →
      settledCourse uid now c
        (cs.foldl (fun l2 q => upsertCourse (courseSetDoc uid q now) l2) l) := by
  intro cs
  induction cs with
  | nil => exact fun l _ h => h
  | cons q qs ih =>
    intro l hne h
    simp only [List.foldl_cons]
    refine ih _ (fun x hx => hne x (List.mem_cons_of_mem q hx)) ?_
    unfold settledCourse at h ⊢
    rw [findCourse_upsert_frame uid c.id (courseSetDoc uid q now) l
      (Or.inl (hne q (List.mem_cons_self q qs)))]
    exact h

/-- After one pass over duplicate-free course ids, every course's record
equals its document. -/
theorem foldl_settles_courses (uid : String) (now : Int) :
    ∀ (cs : List PCourse) (l : List CourseRec),
      (cs.map (fun c => c.id)).Nodup →
      ∀ c ∈ cs, settledCourse uid now c
        (cs.foldl (fun l2 q => upsertCourse (courseSetDoc uid q now) l2) l) := by
  intro cs
  induction cs with
  | nil => intro l _ c hc; simp at hc
  | cons q qs ih =>
    intro l hnd c hc
    have hnd2 := hnd
    rw [List.map_cons, List.nodup_cons] at hnd2
    simp only [List.foldl_cons]
    rcases List.mem_cons.mp hc with rfl | hc2
    · refine settledCourse_foldl uid now c qs _ ?_ ?_
      · intro x hx hceq
        exact hnd2.1 (hceq ▸ List.mem_map_of_mem (fun y => y.id) hx)
      · exact findCourse_upsert_self (courseSetDoc uid c now) l
    · exact ih _ hnd2.2 c hc2

/-- A second pass over settled course documents is the identity. -/
theorem foldl_settled_id_courses (uid : String) (now : Int) :
    ∀ (cs : List PCourse) (l : List CourseRec),
      (∀ c ∈ cs, settledCourse uid now c l) →
      cs.foldl (fun l2 q => upsertCourse (courseSetDoc uid q now) l2) l = l := by
  intro cs
  induction cs with
  | nil => exact fun l _ => rfl
  | cons q qs ih =>
    intro l h
    simp only [List.foldl_cons]
    rw [upsertCourse_eq_self (courseSetDoc uid q now) l (h q (List.mem_cons_self q qs))]
    exact ih l (fun c hc => h c (List.mem_cons_of_mem q hc))

/-- C4: with duplicate-free provider ids in the processed snapshot, a
second sync pass over the same snapshot changes nothing — every upsert of
the second pass hits the record the first pass wrote and rewrites it
identically — so in particular the assignment count stays N, not 2N. -/
theorem C4_sync_idempotent (uid : String) (tracked : List String)
    (courses : List PCourse) (now : Int) (st : CanvasState)
    (hndC : ((processedCourses tracked courses).map (fun c => c.id)).Nodup)
    (hndA : ((processedPairs tracked courses).map (fun p => p.2.id)).Nodup) :
    sync_canvas_data uid tracked courses now (sync_canvas_data uid tracked courses now st)
      = sync_canvas_data uid tracked courses now st ∧
    (sync_canvas_data uid tracked courses now
        (sync_canvas_data uid tracked courses now st)).assignments.length
      = (sync_canvas_data uid tracked courses now st).assignments.length := by
  have heq : sync_canvas_data uid tracked courses now
      (sync_canvas_data uid tracked courses now st)
      = sync_canvas_data uid tracked courses now st := by
    apply canvasState_ext
    · rw [sync_courses_eq uid tracked courses now (sync_canvas_data uid tracked courses now st)]
      rw [sync_courses_eq uid tracked courses now st]
      exact foldl_settled_id_courses uid now (processedCourses tracked courses) _
        (fun c hc => foldl_settles_courses uid now (processedCourses tracked courses)
          st.canvas_courses hndC c hc)
    · rw [sync_assignments_eq uid tracked courses now (sync_canvas_data uid tracked courses now st)]
      rw [sync_assignments_eq uid tracked courses now st]
      exact foldl_settled_id uid now (processedPairs tracked courses) _
        (fun p hp => foldl_settles uid now (processedPairs tracked courses)
          st.assignments hndA p hp)
  exact ⟨heq, by rw [heq]⟩

/-- Witness for C4 at a concrete one-course, one-assignment snapshot. -/
theorem C4_witness :
    sync_canvas_data "u1" ["c1"] [pCourseExample] 5
        (sync_canvas_data "u1" ["c1"] [pCourseExample] 5 ⟨[], []⟩)
      = sync_canvas_data "u1" ["c1"] [pCourseExample] 5 ⟨[], []⟩ ∧
    (sync_canvas_data "u1" ["c1"] [pCourseExample] 5
        (sync_canvas_data "u1" ["c1"] [pCourseExample] 5 ⟨[], []⟩)).assignments.length
      = (sync_canvas_data "u1" ["c1"] [pCourseExample] 5 ⟨[], []⟩).assignments.length :=
  C4_sync_idempotent "u1" ["c1"] [pCourseExample] 5 ⟨[], []⟩ (by decide) (by decide)

end CampusMind
